import Mathlib

/-!
Verification of the JSON normalization and inspection utilities in
`JSON_extractor_and_viewer.py`.

The Python source is shallowly embedded: each Python function becomes a Lean
definition of the same name, stateful loops become folds or explicit
recursion, and the one place where a Python exception can escape to the
caller (the `unicode_escape` decoding step) is modelled with `Except`.
Python values produced by `json.loads` are modelled by the `Json` inductive
type; the Python value `None` (JSON `null`) at a function boundary is
modelled by `Option.none` exactly where the source tests `obj is not None`.

Modelling notes, kept deliberately explicit:
  * Python `str.strip`, the regex class `\s` and `str.splitlines` operate on
    the full Unicode whitespace tables; here the ASCII whitespace characters
    (plus the common separators U+001C-U+001E, U+0085, U+00A0 handled by
    CPython) are embedded, which covers every input the claims mention.
  * `str.lower` is embedded as ASCII lowercasing (`Char.toLower`).
  * Floating point numbers are carried as exact decimal rationals rather
    than IEEE-754 doubles; no claim compares float values.
  * CPython error message texts are not reproduced verbatim; diagnostics are
    opaque strings used only for accumulation, which is all the claims use.
-/

set_option maxRecDepth 10000

/-! ## Python character class helpers -/

/-- Whitespace stripped by Python `str.strip()` and matched by the regex
class `\s` (ASCII part plus the separators CPython additionally treats as
whitespace). -/
def pyIsSpace (c : Char) : Bool :=
  c = ' ' || c = '\t' || c = '\n' || c = '\r' || c = '\x0b' || c = '\x0c' ||
  c = '\x1c' || c = '\x1d' || c = '\x1e' || c = '\x85' || c = '\xa0'

/-- Line boundary characters of Python `str.splitlines` (the `\r\n` pair is
handled separately by the splitter). -/
def pyIsLineBreak (c : Char) : Bool :=
  c = '\n' || c = '\r' || c = '\x0b' || c = '\x0c' ||
  c = '\x1c' || c = '\x1d' || c = '\x1e' || c = '\x85' ||
  c = '\u2028' || c = '\u2029'

/-- JSON whitespace accepted between tokens by `json.loads`. -/
def jsonIsWs (c : Char) : Bool :=
  c = ' ' || c = '\t' || c = '\n' || c = '\r'

/-- Python `str.strip()` on a character list. -/
def pyStripList (cs : List Char) : List Char :=
  ((cs.dropWhile pyIsSpace).reverse.dropWhile pyIsSpace).reverse

/-- Python `str.strip()`. -/
def pyStrip (s : String) : String :=
  ⟨pyStripList s.data⟩

/-- Python `str.splitlines` on a character list: cut at every line-break
character, treating `\r\n` as a single boundary. -/
def pySplitlinesList (cs : List Char) (cur : List Char) : List (List Char) :=
  match cs with
  | [] => if cur = [] then [] else [cur.reverse]
  | '\r' :: '\n' :: rest => cur.reverse :: pySplitlinesList rest []
  | c :: rest =>
      if pyIsLineBreak c then cur.reverse :: pySplitlinesList rest []
      else pySplitlinesList rest (c :: cur)

/-- Python `str.splitlines`. -/
def pySplitlines (s : String) : List String :=
  (pySplitlinesList s.data []).map (fun cs => ⟨cs⟩)

/-- Numeric value of a list of ASCII decimal digits. -/
def digitsToNat (ds : List Char) : Nat :=
  ds.foldl (fun a c => a * 10 + (c.toNat - 48)) 0

/-- Value of a hexadecimal digit, `none` for other characters. -/
def hexVal (c : Char) : Option Nat :=
  if '0' ≤ c && c ≤ '9' then some (c.toNat - 48)
  else if 'a' ≤ c && c ≤ 'f' then some (c.toNat - 87)
  else if 'A' ≤ c && c ≤ 'F' then some (c.toNat - 55)
  else none

/-! ## The data model: Python values produced by `json.loads` -/

/-- Numbers as produced by `json.loads`: `int` for integer literals, decimal
rationals standing in for floats, and the non-standard specials CPython
accepts (`NaN`, `Infinity`, `-Infinity`). -/
inductive JNum where
  | int (i : Int)
  | float (q : Rat)
  | nan
  | inf
  | neginf
deriving Repr

mutual
/-- A Python value built by `json.loads`: dict, list, str, number, bool or
`None`. -/
inductive Json where
  | obj (members : JMembers)
  | arr (elems : JElems)
  | str (s : String)
  | num (n : JNum)
  | bool (b : Bool)
  | null
deriving Repr

/-- The entries of a Python dict, in insertion order. -/
inductive JMembers where
  | nil
  | cons (k : String) (v : Json) (rest : JMembers)
deriving Repr

/-- The elements of a Python list. -/
inductive JElems where
  | nil
  | cons (v : Json) (rest : JElems)
deriving Repr
end

/-- Number of keys of a dict (`len` on a Python dict). -/
def JMembers.length : JMembers → Nat
  | .nil => 0
  | .cons _ _ rest => 1 + rest.length

/-- Number of elements of a list (`len` on a Python list). -/
def JElems.length : JElems → Nat
  | .nil => 0
  | .cons _ rest => 1 + rest.length

/-- Python dict key membership and lookup (`tok in cur`, `cur[tok]`). -/
def JMembers.lookup (k : String) : JMembers → Option Json
  | .nil => none
  | .cons k' v rest => if k' = k then some v else rest.lookup k

/-- Python dict insertion: a repeated key keeps its original position and
takes the new value, a fresh key is appended.  This is the semantics of
building a dict from the parsed key/value pairs. -/
def JMembers.insert (k : String) (v : Json) : JMembers → JMembers
  | .nil => .cons k v .nil
  | .cons k' v' rest =>
      if k' = k then .cons k' v rest else .cons k' v' (rest.insert k v)

/-- Zero-based indexing into a Python list (`cur[idx]`, `idx ≥ 0`). -/
def JElems.get? (i : Nat) : JElems → Option Json
  | .nil => none
  | .cons v rest => match i with
      | 0 => some v
      | i + 1 => rest.get? i

/-- Build dict entries from a list of pairs, with Python dict insertion
semantics for duplicate keys. -/
def JMembers.ofPairs (ps : List (String × Json)) : JMembers :=
  ps.foldl (fun acc p => acc.insert p.1 p.2) .nil

/-- Build list elements from a Lean list. -/
def JElems.ofList : List Json → JElems
  | [] => .nil
  | v :: rest => .cons v (JElems.ofList rest)

/-! ## The Primitive Parser: `json.loads` (strict JSON grammar) -/

/-- Exactly four hexadecimal digits, as in a `\uXXXX` escape. -/
def parseHex4 (cs : List Char) : Option (Nat × List Char) :=
  match cs with
  | a :: b :: c :: d :: rest =>
      match hexVal a, hexVal b, hexVal c, hexVal d with
      | some x, some y, some z, some w => some (((x * 16 + y) * 16 + z) * 16 + w, rest)
      | _, _, _, _ => none
  | _ => none

/-- The single-character string escapes of the JSON grammar. -/
def jsonEscapeChar (e : Char) : Option Char :=
  if e = '"' then some '"'
  else if e = '\\' then some '\\'
  else if e = '/' then some '/'
  else if e = 'b' then some '\x08'
  else if e = 'f' then some '\x0c'
  else if e = 'n' then some '\n'
  else if e = 'r' then some '\r'
  else if e = 't' then some '\t'
  else none

/-- Body of a JSON string literal, entered after the opening quote.  Returns
the decoded content and the remaining input.  Unescaped control characters
are rejected (strict mode).  CPython would keep a lone surrogate from a
`\uXXXX` escape inside the Python string; a Lean `Char` cannot hold one, so
that corner is reported as an error instead — no claim exercises it. -/
def jsonParseStringBody (fuel : Nat) (cs : List Char) : Except String (List Char × List Char) :=
  match fuel with
  | 0 => .error "Unterminated string"
  | fuel + 1 =>
    match cs with
    | [] => .error "Unterminated string"
    | '"' :: rest => .ok ([], rest)
    | '\\' :: 'u' :: rest =>
        (match parseHex4 rest with
         | none => .error "Invalid \\uXXXX escape"
         | some (n, rest2) =>
            if 0xD800 ≤ n && n ≤ 0xDBFF then
              match rest2 with
              | '\\' :: 'u' :: rest3 =>
                  (match parseHex4 rest3 with
                   | some (m, rest4) =>
                      if 0xDC00 ≤ m && m ≤ 0xDFFF then
                        match jsonParseStringBody fuel rest4 with
                        | .ok (content, r) =>
                            .ok (Char.ofNat (0x10000 + (n - 0xD800) * 0x400 + (m - 0xDC00)) :: content, r)
                        | .error e => .error e
                      else .error "Unpaired high surrogate"
                   | none => .error "Invalid \\uXXXX escape")
              | _ => .error "Unpaired high surrogate"
            else if 0xDC00 ≤ n && n ≤ 0xDFFF then .error "Unpaired low surrogate"
            else
              match jsonParseStringBody fuel rest2 with
              | .ok (content, r) => .ok (Char.ofNat n :: content, r)
              | .error e => .error e)
    | '\\' :: e :: rest =>
        (match jsonEscapeChar e with
         | none => .error "Invalid \\escape"
         | some c =>
            match jsonParseStringBody fuel rest with
            | .ok (content, r) => .ok (c :: content, r)
            | .error e2 => .error e2)
    | '\\' :: [] => .error "Unterminated string"
    | c :: rest =>
        if c.toNat < 0x20 then .error "Invalid control character"
        else
          match jsonParseStringBody fuel rest with
          | .ok (content, r) => .ok (c :: content, r)
          | .error e => .error e

/-- A JSON number, following CPython's `NUMBER_RE`:
`(-?(?:0|[1-9]\d*))(\.\d+)?([eE][-+]?\d+)?`.  A literal with a fraction or
exponent part becomes a float, otherwise an int. -/
def jsonParseNumber (cs : List Char) : Except String (Json × List Char) :=
  let (neg, cs1) := match cs with
    | '-' :: r => (true, r)
    | _ => (false, cs)
  match cs1 with
  | [] => .error "Expecting value"
  | c :: r =>
    if c = '0' ∨ ('1' ≤ c ∧ c ≤ '9') then
      let intDs := if c = '0' then ['0'] else c :: r.takeWhile Char.isDigit
      let afterInt := if c = '0' then r else r.dropWhile Char.isDigit
      let (fracDs, afterFrac) :=
        match afterInt with
        | '.' :: d :: r2 =>
            if d.isDigit then (d :: r2.takeWhile Char.isDigit, r2.dropWhile Char.isDigit)
            else ([], afterInt)
        | _ => ([], afterInt)
      let (expPart, afterExp) :=
        match afterFrac with
        | e :: r2 =>
            if e = 'e' ∨ e = 'E' then
              match r2 with
              | s :: r3 =>
                  if s = '+' ∨ s = '-' then
                    (match r3 with
                     | d :: _ =>
                        if d.isDigit then
                          (some (s == '-', r3.takeWhile Char.isDigit), r3.dropWhile Char.isDigit)
                        else (none, afterFrac)
                     | [] => (none, afterFrac))
                  else if s.isDigit then
                    (some (false, r2.takeWhile Char.isDigit), r2.dropWhile Char.isDigit)
                  else (none, afterFrac)
              | [] => (none, afterFrac)
            else (none, afterFrac)
        | [] => (none, afterFrac)
      let sign : Int := if neg then -1 else 1
      if fracDs = [] ∧ expPart = none then
        .ok (.num (.int (sign * (digitsToNat intDs : Int))), afterInt)
      else
        let mant : Int := sign * (digitsToNat (intDs ++ fracDs) : Int)
        let e10 : Int :=
          (match expPart with
           | some (eneg, eds) => (if eneg then -1 else 1) * (digitsToNat eds : Int)
           | none => 0) - (fracDs.length : Int)
        let q : Rat :=
          if 0 ≤ e10 then ((mant * ((10 : Int) ^ e10.toNat) : Int) : Rat)
          else mkRat mant (10 ^ (-e10).toNat)
        .ok (.num (.float q), afterExp)
    else .error "Expecting value"

mutual
/-- One JSON value, dispatching on the first character as CPython's scanner
does (including the non-standard `NaN`, `Infinity`, `-Infinity`). -/
def jsonParseValue : Nat → List Char → Except String (Json × List Char)
  | 0, _ => .error "Nesting fuel exhausted"
  | fuel + 1, cs =>
    match cs with
    | [] => .error "Expecting value"
    | '{' :: rest =>
        let r := rest.dropWhile jsonIsWs
        (match r with
         | '}' :: r2 => .ok (.obj .nil, r2)
         | _ => jsonParseMembers fuel r [])
    | '[' :: rest =>
        let r := rest.dropWhile jsonIsWs
        (match r with
         | ']' :: r2 => .ok (.arr .nil, r2)
         | _ => jsonParseElems fuel r [])
    | '"' :: rest =>
        (match jsonParseStringBody (rest.length + 1) rest with
         | .ok (content, r) => .ok (.str ⟨content⟩, r)
         | .error e => .error e)
    | c :: _ =>
        if "true".data.isPrefixOf cs then .ok (.bool true, cs.drop 4)
        else if "false".data.isPrefixOf cs then .ok (.bool false, cs.drop 5)
        else if "null".data.isPrefixOf cs then .ok (.null, cs.drop 4)
        else if "NaN".data.isPrefixOf cs then .ok (.num .nan, cs.drop 3)
        else if "Infinity".data.isPrefixOf cs then .ok (.num .inf, cs.drop 8)
        else if "-Infinity".data.isPrefixOf cs then .ok (.num .neginf, cs.drop 9)
        else if c = '-' ∨ c.isDigit then jsonParseNumber cs
        else .error "Expecting value"
termination_by structural fuel _cs => fuel

/-- The members of an object, entered at the first (non-`}`) position after
`{` and its whitespace; duplicate keys follow Python dict semantics. -/
def jsonParseMembers : Nat → List Char → List (String × Json) → Except String (Json × List Char)
  | 0, _, _ => .error "Nesting fuel exhausted"
  | fuel + 1, cs, acc =>
    match cs with
    | '"' :: rest =>
        (match jsonParseStringBody (rest.length + 1) rest with
         | .error e => .error e
         | .ok (kcs, r1) =>
            match r1.dropWhile jsonIsWs with
            | ':' :: r2 =>
                (match jsonParseValue fuel (r2.dropWhile jsonIsWs) with
                 | .error e => .error e
                 | .ok (v, r3) =>
                    let acc2 := acc ++ [(⟨kcs⟩, v)]
                    match r3.dropWhile jsonIsWs with
                    | ',' :: r4 => jsonParseMembers fuel (r4.dropWhile jsonIsWs) acc2
                    | '}' :: r4 => .ok (.obj (JMembers.ofPairs acc2), r4)
                    | _ => .error "Expecting , delimiter")
            | _ => .error "Expecting : delimiter")
    | _ => .error "Expecting property name enclosed in double quotes"
termination_by structural fuel _cs _acc => fuel

/-- The elements of an array, entered at the first (non-`]`) position after
`[` and its whitespace. -/
def jsonParseElems : Nat → List Char → List Json → Except String (Json × List Char)
  | 0, _, _ => .error "Nesting fuel exhausted"
  | fuel + 1, cs, acc =>
    match jsonParseValue fuel cs with
    | .error e => .error e
    | .ok (v, r1) =>
        let acc2 := acc ++ [v]
        match r1.dropWhile jsonIsWs with
        | ',' :: r2 => jsonParseElems fuel (r2.dropWhile jsonIsWs) acc2
        | ']' :: r2 => .ok (.arr (JElems.ofList acc2), r2)
        | _ => .error "Expecting , delimiter"
termination_by structural fuel _cs _acc => fuel
end

/-- `json.loads`: parse one JSON document, requiring only whitespace after
it (otherwise CPython raises "Extra data"). -/
def pyLoads (s : String) : Except String Json :=
  let cs := s.data.dropWhile jsonIsWs
  match jsonParseValue (2 * cs.length + 2) cs with
  | .ok (v, rest) =>
      if rest.dropWhile jsonIsWs = [] then .ok v else .error "Extra data"
  | .error e => .error e

/-- `try_json_loads_once` (source lines 18-26): returns `(obj, error_msg)`.
The Python value `None` — produced both by a parse *failure* and by a
successful parse of the JSON text `null` — is `Option.none` here; the
source's `obj is not None` tests rely on exactly this conflation. -/
def try_json_loads_once (text : String) : Option Json × String :=
  match pyLoads text with
  | .ok .null => (none, "")
  | .ok v => (some v, "")
  | .error e => (none, e)

/-! ## The Escape/Quote Decoder: `decode_escaped_json` and its passes -/

/-- UTF-8 encoding of a character, as `str.encode("utf-8")` produces. -/
def utf8Bytes (c : Char) : List Nat :=
  let n := c.toNat
  if n < 0x80 then [n]
  else if n < 0x800 then [0xC0 + n / 0x40, 0x80 + n % 0x40]
  else if n < 0x10000 then
    [0xE0 + n / 0x1000, 0x80 + (n / 0x40) % 0x40, 0x80 + n % 0x40]
  else
    [0xF0 + n / 0x40000, 0x80 + (n / 0x1000) % 0x40, 0x80 + (n / 0x40) % 0x40,
     0x80 + n % 0x40]

/-- Octal digit test for `\ooo` escapes. -/
def isOctal (c : Char) : Bool := '0' ≤ c && c ≤ '7'

/-- Octal value of up to three octal digit characters. -/
def octalToNat (ds : List Char) : Nat :=
  ds.foldl (fun a c => a * 8 + (c.toNat - 48)) 0

/-- CPython's `bytes.decode("unicode_escape")`, operating on the bytes read
back as latin-1 characters.  `none` models the `UnicodeDecodeError` that the
codec raises — notably for a trailing lone backslash ("\\ at end of string")
and for malformed `\xXX`/`\uXXXX`/`\UXXXXXXXX` escapes.  Two corners are
simplified: `\N{NAME}` lookups (the Unicode name database is not modelled,
so they are reported as errors — CPython errors only for unknown names) and
`\uXXXX` escapes denoting lone surrogates (CPython builds a surrogate-laden
str, which a Lean `String` cannot hold).  No claim exercises either. -/
def pyUnicodeEscapeGo (fuel : Nat) (cs : List Char) : Option (List Char) :=
  match fuel, cs with
  | 0, _ => none
  | _, [] => some []
  | fuel + 1, '\\' :: rest =>
    (match rest with
     | [] => none
     | '\n' :: r =>  -- line continuation: backslash-newline vanishes
        pyUnicodeEscapeGo fuel r
     | 'x' :: r =>
        (match r with
         | a :: b :: r2 =>
            (match hexVal a, hexVal b with
             | some x, some y =>
                (pyUnicodeEscapeGo fuel r2).map (fun l => Char.ofNat (x * 16 + y) :: l)
             | _, _ => none)
         | _ => none)
     | 'u' :: r =>
        (match parseHex4 r with
         | some (n, r2) =>
            if n < 0xD800 ∨ (0xE000 ≤ n ∧ n ≤ 0x10FFFF) then
              (pyUnicodeEscapeGo fuel r2).map (fun l => Char.ofNat n :: l)
            else none
         | none => none)
     | 'U' :: r =>
        (match parseHex4 r with
         | some (hi, r2) =>
            (match parseHex4 r2 with
             | some (lo, r3) =>
                let n := hi * 0x10000 + lo
                if n < 0xD800 ∨ (0xE000 ≤ n ∧ n ≤ 0x10FFFF) then
                  (pyUnicodeEscapeGo fuel r3).map (fun l => Char.ofNat n :: l)
                else none
             | none => none)
         | none => none)
     | 'N' :: _ => none
     | c :: r =>
        if isOctal c then
          let ds := (c :: r).takeWhile isOctal |>.take 3
          let r2 := (c :: r).drop ds.length
          (pyUnicodeEscapeGo fuel r2).map (fun l => Char.ofNat (octalToNat ds) :: l)
        else
          let esc : Option Char :=
            if c = '\\' then some '\\'
            else if c = '\'' then some '\''
            else if c = '"' then some '"'
            else if c = 'a' then some '\x07'
            else if c = 'b' then some '\x08'
            else if c = 'f' then some '\x0c'
            else if c = 'n' then some '\n'
            else if c = 'r' then some '\r'
            else if c = 't' then some '\t'
            else if c = 'v' then some '\x0b'
            else none
          match esc with
          | some ch => (pyUnicodeEscapeGo fuel r).map (fun l => ch :: l)
          | none =>
              -- unknown escapes keep the backslash and the character
              (pyUnicodeEscapeGo fuel r).map (fun l => '\\' :: c :: l))
  | fuel + 1, c :: rest =>
      (pyUnicodeEscapeGo fuel rest).map (fun l => c :: l)

/-- `s.encode("utf-8").decode("unicode_escape")` (source line 84): expand to
UTF-8 bytes, read each byte back as a latin-1 character, then apply the
escape decoding.  `none` is the raised `UnicodeDecodeError`. -/
def pyUnicodeEscape (s : String) : Option String :=
  let cs := ((s.data.map utf8Bytes).flatten).map Char.ofNat
  (pyUnicodeEscapeGo (cs.length + 1) cs).map (fun l => (⟨l⟩ : String))

/-- The regex substitution `re.sub(r'^\s*\d+\s*:\s*', '', s)` of source
line 42: strip a log-style index prefix such as `0: ` or `12 :`. -/
def strip_index_pref (cs : List Char) : List Char :=
  let r1 := cs.dropWhile pyIsSpace
  let ds := r1.takeWhile Char.isDigit
  if ds = [] then cs
  else
    match (r1.dropWhile Char.isDigit).dropWhile pyIsSpace with
    | ':' :: r2 => r2.dropWhile pyIsSpace
    | _ => cs

/-- One layer of matching outer single or double quotes is removed
(source lines 46-47 and 66-68); mirrors Python `s[1:-1]`, which maps the
one-character string `"` to the empty string. -/
def stripOuterQuotes (cs : List Char) : List Char :=
  if (cs.head? = some '"' && cs.getLast? = some '"') ||
     (cs.head? = some '\'' && cs.getLast? = some '\'') then
    (cs.drop 1).dropLast
  else cs

/-- The regex substitution `re.sub(r'^\s*""(.*)""\s*$', r'"\1"', s2)` of
source line 71: collapse a doubled-quote wrapper into a single quote layer.
`.*` does not cross a newline, and on a match the surrounding whitespace is
consumed and not re-emitted. -/
def collapseDoubledQuotes (cs : List Char) : List Char :=
  let u := pyStripList cs
  let mid := (u.drop 2).take (u.length - 4)
  if 4 ≤ u.length && u.take 2 = ['"', '"'] && u.reverse.take 2 = ['"', '"'] &&
     !(mid.contains '\n') then
    '"' :: (mid ++ ['"'])
  else cs

/-- The parse-plus-double-decode block that `decode_escaped_json` repeats at
source lines 52-62, 73-81 and 85-93: one strict parse attempt; a resulting
string value is itself parsed once more, the inner value winning when that
inner parse yields a non-`None` result. -/
def parse_with_double_decode (s : String) : Option Json × String :=
  match try_json_loads_once s with
  | (some (Json.str c), _) =>
      (match try_json_loads_once c with
       | (some inner, _) => (some inner, "")
       | (none, _) => (some (Json.str c), ""))
  | (some v, _) => (some v, "")
  | (none, err) => (none, err)

/-- `decode_escaped_json` (source lines 28-95).  The `Except` layer models
the Python exception channel: the only operation that can raise out of the
function is the `unicode_escape` decoding of source line 84, which sits
outside any `try` block. -/
def decode_escaped_json (s : String) : Except String (Option Json × String) :=
  let s1a := strip_index_pref s.data
  let s1b := pyStripList s1a
  let s1 := stripOuterQuotes s1b
  match parse_with_double_decode ⟨s1⟩ with
  | (some obj, _) => .ok (some obj, "")
  | (none, err) =>
    let s2a := pyStripList s1
    let s2b := stripOuterQuotes s2a
    let s2 := collapseDoubledQuotes s2b
    match parse_with_double_decode ⟨s2⟩ with
    | (some obj, _) => .ok (some obj, "")
    | (none, err2) =>
      match pyUnicodeEscape ⟨s2⟩ with
      | none => .error "UnicodeDecodeError: unicode_escape decoding failed"
      | some s3 =>
        match parse_with_double_decode s3 with
        | (some obj, _) => .ok (some obj, "")
        | (none, err3) =>
            .ok (none, "Failed to decode escaped JSON. Attempts: " ++ err ++
                       " | " ++ err2 ++ " | " ++ err3)

/-! ## The Segmenter: `explode_lines` -/

/-- Attempt to match the boundary `\s*,\s*{` that must follow a `}` for the
split pattern `}\s*,\s*{` of source line 117; returns the input remaining
after the consumed `{` on success. -/
def boundaryAfterBrace (rest : List Char) : Option (List Char) :=
  match rest.dropWhile pyIsSpace with
  | ',' :: r2 =>
      (match r2.dropWhile pyIsSpace with
       | '{' :: r4 => some r4
       | _ => none)
  | _ => none

/-- `re.split(r'}\s*,\s*{', t)`: scan left to right, cutting at each
leftmost non-overlapping match and dropping the matched separators. -/
def splitBoundaryGo (fuel : Nat) (cs : List Char) (cur : List Char) : List (List Char) :=
  match fuel, cs with
  | 0, _ => [cur.reverse ++ cs]
  | _, [] => [cur.reverse]
  | fuel + 1, c :: rest =>
    if c = '}' then
      match boundaryAfterBrace rest with
      | some r4 => cur.reverse :: splitBoundaryGo fuel r4 []
      | none => splitBoundaryGo fuel rest (c :: cur)
    else splitBoundaryGo fuel rest (c :: cur)

/-- String form of the boundary split. -/
def reSplitBoundary (s : String) : List String :=
  (splitBoundaryGo (s.data.length + 1) s.data []).map (fun cs => (⟨cs⟩ : String))

/-- `explode_lines` (source lines 97-123): whole-input parse check first,
then non-blank lines, then the concatenated-object split, else the single
segment. -/
def explode_lines (text : String) : List String :=
  let t := pyStrip text
  match (try_json_loads_once t).1 with
  | some _ => [t]
  | none =>
    let lines := (pySplitlines t).filter (fun ln => pyStrip ln ≠ "")
    if lines.length > 1 then lines
    else
      let parts := reSplitBoundary t
      if parts.length > 1 then
        match parts with
        | [] => [t]
        | p0 :: rest => (p0 ++ "\x7d") :: rest.map (fun p => "\x7b" ++ p)
      else [t]

/-! ## The Normalizer: `normalize_input_to_json` -/

/-- `looks_like_json` (source lines 14-16). -/
def looks_like_json (s : String) : Bool :=
  let t := pyStripList s.data
  (t.head? = some '{' && t.getLast? = some '}') ||
  (t.head? = some '[' && t.getLast? = some ']')

/-- The result triple `(single_json, list_entries, errors)` of
`normalize_input_to_json`, with the spec's field names. -/
structure NormResult where
  primary : Option Json
  entries : List Json
  errors : List String
deriving Repr

/-- The diagnostic appended on a failed segment (source lines 162/169),
with the segment text truncated to 200 characters. -/
def segment_failed_msg (err : String) (seg : String) : String :=
  "Segment failed: " ++ err ++ "\nSegment: " ++ (⟨seg.data.take 200⟩ : String)

/-- The per-segment loop of `normalize_input_to_json` (source lines
148-169), accumulating `entries` and `errors`; a raised exception from
`decode_escaped_json` aborts the whole call. -/
def process_segments : List String → List Json → List String →
    Except String (List Json × List String)
  | [], entries, errors => .ok (entries, errors)
  | seg :: rest, entries, errors =>
    let s := pyStrip seg
    if s = "" then process_segments rest entries errors
    else if looks_like_json s then
      match try_json_loads_once s with
      | (some obj, _) => process_segments rest (entries ++ [obj]) errors
      | (none, _) =>
        match decode_escaped_json s with
        | .error e => .error e
        | .ok (some obj, _) => process_segments rest (entries ++ [obj]) errors
        | .ok (none, err2) =>
            process_segments rest entries (errors ++ [segment_failed_msg err2 s])
    else
      match decode_escaped_json s with
      | .error e => .error e
      | .ok (some obj, _) => process_segments rest (entries ++ [obj]) errors
      | .ok (none, err) =>
          process_segments rest entries (errors ++ [segment_failed_msg err s])

/-- Source lines 171-173: wrap multiple entries in an array, promote a
single entry, otherwise leave `single_json` as `None` (at that point in the
source `single_json` is always still `None`). -/
def derive_primary : List Json → Option Json
  | [] => none
  | [e] => some e
  | es => some (.arr (JElems.ofList es))

/-- `normalize_input_to_json` (source lines 125-175).  The `Except` layer
carries the Python exception that `decode_escaped_json` can raise. -/
def normalize_input_to_json (text : String) : Except String NormResult :=
  if looks_like_json text then
    match try_json_loads_once text with
    | (some obj, _) => .ok ⟨some obj, [], []⟩
    | (none, err) =>
      match process_segments (explode_lines text) [] ["Parse error: " ++ err] with
      | .error e => .error e
      | .ok (entries, errors) => .ok ⟨derive_primary entries, entries, errors⟩
  else
    match process_segments (explode_lines text) [] [] with
    | .error e => .error e
    | .ok (entries, errors) => .ok ⟨derive_primary entries, entries, errors⟩

/-! ## The Query Engine -/

/-- `type_label` (source lines 178-191): the `isinstance` chain checks dict,
list, str, `bool`, then `(int, float)` — so booleans are caught before the
generic numeric test and are labelled `"boolean"`. -/
def type_label : Json → String
  | .obj m => "object • " ++ toString m.length ++ " key(s)"
  | .arr e => "array • " ++ toString e.length ++ " item(s)"
  | .str _ => "string"
  | .bool _ => "boolean"
  | .num _ => "number"
  | .null => "null"

/-- Python `str()` on the scalar values that `search_json` stringifies.
Floats are rendered from the exact rational (an approximation of CPython's
`repr`-based float formatting; no claim inspects a float's string).  The
container cases are never reached by `search_json`, which recurses into
dicts and lists instead of stringifying them. -/
def pyStr : Json → String
  | .str s => s
  | .bool true => "True"
  | .bool false => "False"
  | .null => "None"
  | .num (.int i) => toString i
  | .num (.float q) => toString q
  | .num .nan => "nan"
  | .num .inf => "inf"
  | .num .neginf => "-inf"
  | .obj _ => "<dict>"
  | .arr _ => "<list>"

/-- Python `str.lower`, ASCII range. -/
def pyLower (s : String) : String :=
  ⟨s.data.map Char.toLower⟩

/-- Python's substring containment `q in s`. -/
def listContainsSub : List Char → List Char → Bool
  | q, [] => q.isPrefixOf []
  | q, s@(_ :: t) => q.isPrefixOf s || listContainsSub q t

/-- `q in s` on strings. -/
def pyIn (q s : String) : Bool :=
  listContainsSub q.data s.data

/-- The order-preserving de-duplication at the end of `search_json`
(source lines 232-239): keep the first occurrence of each hit. -/
def uniq_preserve_order : List String → List String → List String
  | [], _ => []
  | h :: t, seen =>
      if h ∈ seen then uniq_preserve_order t seen
      else h :: uniq_preserve_order t (h :: seen)

mutual
/-- `search_json` (source lines 211-239): case-insensitive substring match
of the query against keys and stringified scalar values, recursing into
dicts and lists, de-duplicating the hit paths at every level. -/
def search_json (node : Json) (query : String) (path : String := "") : List String :=
  let q := pyLower query
  let hits :=
    match node with
    | .obj m => search_members m q path
    | .arr e => search_elems e q path 0
    | _ => []
  uniq_preserve_order hits []

/-- The dict branch of `search_json`: each key contributes its path when the
query occurs in the lowered key, and its value either recursively (dict or
list) or by scalar stringification. -/
def search_members (m : JMembers) (q : String) (path : String) : List String :=
  match m with
  | .nil => []
  | .cons k v rest =>
      let kPath := if path ≠ "" then path ++ "." ++ k else k
      let keyHit := if pyIn q (pyLower k) then [kPath] else []
      let valHits :=
        match v with
        | .obj _ => search_json v q kPath
        | .arr _ => search_json v q kPath
        | _ => if pyIn q (pyLower (pyStr v)) then [kPath] else []
      keyHit ++ (valHits ++ search_members rest q path)

/-- The list branch of `search_json`, with `[i]` suffixed paths. -/
def search_elems (e : JElems) (q : String) (path : String) (i : Nat) : List String :=
  match e with
  | .nil => []
  | .cons v rest =>
      let iPath := path ++ "[" ++ toString i ++ "]"
      let valHits :=
        match v with
        | .obj _ => search_json v q iPath
        | .arr _ => search_json v q iPath
        | _ => if pyIn q (pyLower (pyStr v)) then [iPath] else []
      valHits ++ search_elems rest q path (i + 1)
end

/-- The token scan `re.findall(r"[^\[\]]+|\[\d+\]", segment)` of source
line 247: maximal bracket-free runs, or a bracketed digit group; a `[` not
opening a digit group and a stray `]` are skipped (the regex engine advances
one position when no alternative matches). -/
def findPathTokens (fuel : Nat) (cs : List Char) : List String :=
  match fuel, cs with
  | 0, _ => []
  | _, [] => []
  | fuel + 1, c :: rest =>
    if c = '[' then
      let ds := rest.takeWhile Char.isDigit
      match ds, rest.drop ds.length with
      | _ :: _, ']' :: r2 => ("[" ++ (⟨ds⟩ : String) ++ "]") :: findPathTokens fuel r2
      | _, _ => findPathTokens fuel rest
    else if c = ']' then findPathTokens fuel rest
    else
      let run := (c :: rest).takeWhile (fun x => x ≠ '[' && x ≠ ']')
      (⟨run⟩ : String) :: findPathTokens fuel ((c :: rest).drop run.length)

/-- Python `path.split(".")`: cut at every dot, keeping empty pieces. -/
def pySplitDot (cs : List Char) (cur : List Char) : List (List Char) :=
  match cs with
  | [] => [cur.reverse]
  | '.' :: rest => cur.reverse :: pySplitDot rest []
  | c :: rest => pySplitDot rest (c :: cur)

/-- Source lines 245-248: split the path on dots, then scan each piece for
key and index tokens. -/
def path_tokens (path : String) : List String :=
  ((pySplitDot path.data []).map (fun seg => findPathTokens (seg.length + 1) seg)).flatten

/-- The traversal loop of `extract_by_path` (source lines 250-260).  An
index token steps into a list when the index is in range, otherwise the
`KeyError("Index out of range at [i]")` is raised; a key token steps into a
dict member, otherwise `KeyError("Key not found: k")`.  Index tokens always
have the form `[digits]`, so `int(tok[1:-1])` is `digitsToNat` of the
middle. -/
def extract_go : Json → List String → Except String Json
  | cur, [] => .ok cur
  | cur, tok :: rest =>
    if tok.data.head? = some '[' then
      let idx := digitsToNat ((tok.data.drop 1).dropLast)
      match cur with
      | .arr xs =>
          (match xs.get? idx with
           | some v => extract_go v rest
           | none => .error ("Index out of range at " ++ tok))
      | _ => .error ("Index out of range at " ++ tok)
    else
      match cur with
      | .obj m =>
          (match m.lookup tok with
           | some v => extract_go v rest
           | none => .error ("Key not found: " ++ tok))
      | _ => .error ("Key not found: " ++ tok)

/-- `extract_by_path` (source lines 242-260); the empty path returns the
node itself. -/
def extract_by_path (node : Json) (path : String) : Except String Json :=
  if path = "" then .ok node
  else extract_go node (path_tokens path)

/-! ## Structural statistics: `count_nodes` -/

/-- The mutable `stats` dict of `count_nodes` (source line 264). -/
structure NodeStats where
  objects : Nat
  arrays : Nat
  strings : Nat
  numbers : Nat
  booleans : Nat
  nulls : Nat
  total_nodes : Nat
deriving Repr

def bumpTotal (s : NodeStats) : NodeStats :=
  ⟨s.objects, s.arrays, s.strings, s.numbers, s.booleans, s.nulls, s.total_nodes + 1⟩

def bumpObjects (s : NodeStats) : NodeStats :=
  ⟨s.objects + 1, s.arrays, s.strings, s.numbers, s.booleans, s.nulls, s.total_nodes⟩

def bumpArrays (s : NodeStats) : NodeStats :=
  ⟨s.objects, s.arrays + 1, s.strings, s.numbers, s.booleans, s.nulls, s.total_nodes⟩

def bumpStrings (s : NodeStats) : NodeStats :=
  ⟨s.objects, s.arrays, s.strings + 1, s.numbers, s.booleans, s.nulls, s.total_nodes⟩

def bumpNumbers (s : NodeStats) : NodeStats :=
  ⟨s.objects, s.arrays, s.strings, s.numbers + 1, s.booleans, s.nulls, s.total_nodes⟩

def bumpNulls (s : NodeStats) : NodeStats :=
  ⟨s.objects, s.arrays, s.strings, s.numbers, s.booleans, s.nulls + 1, s.total_nodes⟩

mutual
/-- The `_walk` closure of `count_nodes` (source lines 265-284).  The
`isinstance` chain there tests `(int, float)` BEFORE `bool`; since Python
`bool` is a subclass of `int`, a boolean node satisfies
`isinstance(n, (int, float))` and takes the `numbers` branch — the
`booleans` branch of the source is unreachable. -/
def count_walk : Json → NodeStats → NodeStats
  | .obj m, s => count_walk_members m (bumpObjects (bumpTotal s))
  | .arr e, s => count_walk_elems e (bumpArrays (bumpTotal s))
  | .str _, s => bumpStrings (bumpTotal s)
  | .num _, s => bumpNumbers (bumpTotal s)
  | .bool _, s => bumpNumbers (bumpTotal s)
  | .null, s => bumpNulls (bumpTotal s)

/-- Walk the values of a dict in insertion order. -/
def count_walk_members : JMembers → NodeStats → NodeStats
  | .nil, s => s
  | .cons _ v rest, s => count_walk_members rest (count_walk v s)

/-- Walk the elements of a list in order. -/
def count_walk_elems : JElems → NodeStats → NodeStats
  | .nil, s => s
  | .cons v rest, s => count_walk_elems rest (count_walk v s)
end

/-- `count_nodes` (source lines 263-286): all counters start at zero. -/
def count_nodes (node : Json) : NodeStats :=
  count_walk node ⟨0, 0, 0, 0, 0, 0, 0⟩

/-! ## Shared lemmas -/

/-- The de-duplication pass returns a duplicate-free list avoiding `seen`. -/
theorem uniq_preserve_order_spec : ∀ (l seen : List String),
    (uniq_preserve_order l seen).Nodup ∧ ∀ x ∈ uniq_preserve_order l seen, x ∉ seen := by
  intro l
  induction l with
  | nil => intro seen; simp [uniq_preserve_order]
  | cons h t ih =>
    intro seen
    simp only [uniq_preserve_order]
    by_cases hmem : h ∈ seen
    · simp only [if_pos hmem]; exact ih seen
    · simp only [if_neg hmem]
      have iht := ih (h :: seen)
      refine ⟨?_, ?_⟩
      · rw [List.nodup_cons]
        exact ⟨fun hc => (iht.2 h hc) (List.mem_cons_self h (h :: seen).tail), iht.1⟩
      · intro x hx
        rcases List.mem_cons.mp hx with hx1 | hx2
        · subst hx1; exact hmem
        · exact fun hxs => (iht.2 x hx2) (List.mem_cons_of_mem _ hxs)

/-- Every non-blank segment contributes exactly one parsed entry or one
diagnostic: the final `entries`/`errors` lengths account for all of them. -/
theorem process_segments_count : ∀ (segs : List String) (en : List Json)
    (er : List String) (en' : List Json) (er' : List String),
    process_segments segs en er = .ok (en', er') →
    en'.length + er'.length =
      en.length + er.length + (segs.filter (fun s => pyStrip s ≠ "")).length := by
  intro segs
  induction segs with
  | nil =>
    intro en er en' er' h
    simp only [process_segments, Except.ok.injEq, Prod.mk.injEq] at h
    rcases h with ⟨h1, h2⟩
    subst h1; subst h2; simp
  | cons seg rest ih =>
    intro en er en' er' h
    simp only [process_segments] at h
    rw [List.filter_cons]
    by_cases hb : pyStrip seg = ""
    · rw [if_pos hb] at h
      have := ih _ _ _ _ h
      simp [hb, this]
    · rw [if_neg hb] at h
      have hkeep : (decide (pyStrip seg ≠ "")) = true := by simp [hb]
      rw [hkeep]
      split at h
      · split at h
        · have := ih _ _ _ _ h
          simp only [List.length_append, List.length_cons, List.length_nil] at this
          simp [this]; omega
        · split at h
          · exact absurd h (by simp)
          · have := ih _ _ _ _ h
            simp only [List.length_append, List.length_cons, List.length_nil] at this
            simp [this]; omega
          · have := ih _ _ _ _ h
            simp only [List.length_append, List.length_cons, List.length_nil] at this
            simp [this]; omega
      · split at h
        · exact absurd h (by simp)
        · have := ih _ _ _ _ h
          simp only [List.length_append, List.length_cons, List.length_nil] at this
          simp [this]; omega
        · have := ih _ _ _ _ h
          simp only [List.length_append, List.length_cons, List.length_nil] at this
          simp [this]; omega

/-! ## Concrete example values used by the claims -/

/-- The parse of `{"a":1,"b":[true,null]}` (claim C4's statistics input). -/
def exStats : Json :=
  .obj (.cons "a" (.num (.int 1))
    (.cons "b" (.arr (.cons (.bool true) (.cons .null .nil))) .nil))

/-- The parse of `{"a":{"b":"foo"}}`. -/
def exSearchA : Json :=
  .obj (.cons "a" (.obj (.cons "b" (.str "foo") .nil)) .nil)

/-- The parse of `[{"x":1},{"x":2}]`. -/
def exSearchB : Json :=
  .arr (.cons (.obj (.cons "x" (.num (.int 1)) .nil))
    (.cons (.obj (.cons "x" (.num (.int 2)) .nil)) .nil))

/-- The parse of `{"items":[{"id":5}]}`. -/
def exItems : Json :=
  .obj (.cons "items"
    (.arr (.cons (.obj (.cons "id" (.num (.int 5)) .nil)) .nil)) .nil)

/-- The parse of `{"a":1}`. -/
def objA1 : Json := .obj (.cons "a" (.num (.int 1)) .nil)

/-- The parse of `{"b":2}`. -/
def objB2 : Json := .obj (.cons "b" (.num (.int 2)) .nil)

/-- The parse of `{"key":"AIRCRAFT","value":false}`. -/
def objAircraft : Json :=
  .obj (.cons "key" (.str "AIRCRAFT") (.cons "value" (.bool false) .nil))

/-! ## Claim theorems -/

/-- C2: the claim says `normalize` never raises to the caller, recording
every segment failure as a diagnostic.  The code contradicts it: on the
input `abc\` (a single non-JSON segment ending in a lone backslash) the
unguarded `unicode_escape` decoding of source line 84 raises
`UnicodeDecodeError` out of `decode_escaped_json` and out of
`normalize_input_to_json`, modelled here by the `.error` result. -/
theorem c2_normalize_raises_on_trailing_backslash :
    normalize_input_to_json "abc\\" =
      .error "UnicodeDecodeError: unicode_escape decoding failed" := by
  rfl

/-- C4: the claim expects `countNodes({"a":1,"b":[true,null]})` to report
booleans=1 and numbers=1.  The code's `isinstance` chain tests
`(int, float)` before `bool`, and Python booleans are `int` instances, so
`true` is counted as a number: the code yields objects=1, arrays=1,
strings=0, numbers=2, booleans=0, nulls=1, total_nodes=5.  The first
conjunct ties the input value to its JSON text. -/
theorem c4_count_nodes_counts_bool_as_number :
    pyLoads "\x7b\"a\":1,\"b\":[true,null]\x7d" = .ok exStats ∧
    count_nodes exStats = ⟨1, 1, 0, 2, 0, 1, 5⟩ := by
  exact ⟨rfl, rfl⟩

/-- C9: `type_label` classifies booleans as `"boolean"` (the `bool` check
precedes the numeric check in this function), numbers as `"number"`,
objects and arrays with their sizes, strings as `"string"` and `None` as
`"null"`. -/
theorem c9_type_label_classification :
    type_label (.bool true) = "boolean" ∧
    type_label (.bool false) = "boolean" ∧
    (∀ n : JNum, type_label (.num n) = "number") ∧
    (∀ m : JMembers, type_label (.obj m) = "object • " ++ toString m.length ++ " key(s)") ∧
    (∀ e : JElems, type_label (.arr e) = "array • " ++ toString e.length ++ " item(s)") ∧
    (∀ s : String, type_label (.str s) = "string") ∧
    type_label .null = "null" := by
  exact ⟨rfl, rfl, fun _ => rfl, fun _ => rfl, fun _ => rfl, fun _ => rfl, rfl⟩

/-- C10: the empty path is the identity traversal: `extract_by_path`
returns the node unchanged with no error (source line 243-244). -/
theorem c10_extract_empty_path_identity :
    ∀ v : Json, extract_by_path v "" = .ok v := by
  intro v
  simp [extract_by_path]

/-- The text of claim C6: the JSON string literal whose content is escaped
JSON, `"{\"key\":\"AIRCRAFT\",\"value\":false}"`. -/
def c6Text : String :=
  "\"\x7b\\\"key\\\":\\\"AIRCRAFT\\\",\\\"value\\\":false\x7d\""

/-- C1 counterexample: the text `null` is accepted by the strict parser
(value `null`), but `normalize` returns no primary value and a non-empty
errors list — `json.loads` returning Python `None` is indistinguishable
from a parse failure in the source's `obj is not None` tests, so the
segment falls through every decoder pass. -/
theorem c1_counterexample_null :
    pyLoads "null" = .ok Json.null ∧
    normalize_input_to_json "null" =
      .ok ⟨none, [],
        ["Segment failed: Failed to decode escaped JSON. Attempts:  |  | \nSegment: null"]⟩ := by
  exact ⟨rfl, rfl⟩

/-- C1 amended: for input that is bracket-delimited after trimming (an
object or array shape) and strictly parses, `normalize` returns exactly
that parse as `primary` with no entries and no errors (source lines
137-141). -/
theorem c1_normalize_valid_bracketed (t : String) (v : Json)
    (h1 : looks_like_json t = true) (h2 : (try_json_loads_once t).1 = some v) :
    normalize_input_to_json t = .ok ⟨some v, [], []⟩ := by
  rcases hp : try_json_loads_once t with ⟨o, err⟩
  rw [hp] at h2
  simp only at h2
  subst h2
  simp [normalize_input_to_json, h1, hp]

/-- C1 witness: the amended statement at the concrete input `{"a":1}`. -/
theorem c1_normalize_valid_bracketed_witness :
    looks_like_json "\x7b\"a\":1\x7d" = true ∧
    (try_json_loads_once "\x7b\"a\":1\x7d").1 = some objA1 ∧
    normalize_input_to_json "\x7b\"a\":1\x7d" = .ok ⟨some objA1, [], []⟩ :=
  ⟨rfl, rfl, c1_normalize_valid_bracketed _ objA1 rfl rfl⟩

/-- C6 counterexample: the claim's general clause — whenever a decoder
parse attempt yields a string whose content itself parses as JSON, the
inner value is returned — fails when the content parses to `null`.  The
segment `'"null"'` reaches the double-decode block with the string
`"null"`: its content is valid JSON (`null`), yet `json.loads` hands the
inner attempt back Python `None`, the `inner_obj is not None` test treats
that as "not truly JSON inside" (source line 57-61), and the *outer
string* is returned. -/
theorem c6_counterexample_null_content :
    pyLoads "null" = .ok Json.null ∧
    parse_with_double_decode "\"null\"" = (some (Json.str "null"), "") ∧
    decode_escaped_json "'\"null\"'" = .ok (some (Json.str "null"), "") := by
  exact ⟨rfl, rfl, rfl⟩

/-- C6 amended: normalizing the JSON string literal containing escaped JSON
recovers the inner object, not the literal string; and in general, whenever
a decoder parse attempt yields a string, the string's content is parsed
once more — the inner value is returned when that inner parse yields a
non-`None` value, otherwise (the content failing to parse, or parsing to
`null`) the outer string itself is returned as a primitive. -/
theorem c6_double_decode :
    (normalize_input_to_json c6Text = .ok ⟨some objAircraft, [objAircraft], []⟩) ∧
    (∀ s c : String, (try_json_loads_once s).1 = some (.str c) →
      (∀ v : Json, (try_json_loads_once c).1 = some v →
        parse_with_double_decode s = (some v, "")) ∧
      ((try_json_loads_once c).1 = none →
        parse_with_double_decode s = (some (.str c), ""))) := by
  refine ⟨rfl, ?_⟩
  intro s c hs
  rcases hps : try_json_loads_once s with ⟨o, e⟩
  rw [hps] at hs
  simp only at hs
  subst hs
  constructor
  · intro v hv
    rcases hpc : try_json_loads_once c with ⟨oc, ec⟩
    rw [hpc] at hv
    simp only at hv
    subst hv
    simp [parse_with_double_decode, hps, hpc]
  · intro hv
    rcases hpc : try_json_loads_once c with ⟨oc, ec⟩
    rw [hpc] at hv
    simp only at hv
    subst hv
    simp [parse_with_double_decode, hps, hpc]

/-- C6 witness: the general double-decode statement at the concrete input
`"5"` (a string literal whose content parses as the number 5). -/
theorem c6_double_decode_witness :
    (try_json_loads_once "\"5\"").1 = some (.str "5") ∧
    parse_with_double_decode "\"5\"" = (some (.num (.int 5)), "") :=
  ⟨rfl, (c6_double_decode.2 "\"5\"" "5" rfl).1 (.num (.int 5)) rfl⟩

/-- Every error produced by the traversal loop of `extract_by_path` is a
key-not-found or index-out-of-range diagnostic naming the failing token. -/
theorem extract_go_error_shape : ∀ (toks : List String) (cur : Json) (e : String),
    extract_go cur toks = .error e →
    ∃ tok, e = "Key not found: " ++ tok ∨ e = "Index out of range at " ++ tok := by
  intro toks
  induction toks with
  | nil => intro cur e h; simp [extract_go] at h
  | cons tok rest ih =>
    intro cur e h
    simp only [extract_go] at h
    split at h
    · split at h
      · split at h
        · exact ih _ _ h
        · simp only [Except.error.injEq] at h
          exact ⟨tok, Or.inr h.symm⟩
      · simp only [Except.error.injEq] at h
        exact ⟨tok, Or.inr h.symm⟩
    · split at h
      · split at h
        · exact ih _ _ h
        · simp only [Except.error.injEq] at h
          exact ⟨tok, Or.inl h.symm⟩
      · simp only [Except.error.injEq] at h
        exact ⟨tok, Or.inl h.symm⟩

/-- C7: `extractByPath({"items":[{"id":5}]}, "items[0].id")` returns `5`;
`items[9].id` on the same value fails with an index-out-of-range error
naming `[9]`; and every traversal failure is a key-not-found or
index-out-of-range error naming the failing token. -/
theorem c7_extract_by_path :
    extract_by_path exItems "items[0].id" = .ok (.num (.int 5)) ∧
    extract_by_path exItems "items[9].id" = .error "Index out of range at [9]" ∧
    (∀ (v : Json) (p e : String), extract_by_path v p = .error e →
      ∃ tok, e = "Key not found: " ++ tok ∨ e = "Index out of range at " ++ tok) := by
  refine ⟨rfl, rfl, ?_⟩
  intro v p e h
  unfold extract_by_path at h
  split at h
  · exact absurd h (by simp)
  · exact extract_go_error_shape _ _ _ h

/-- C7 witness: the error-shape statement applied at the concrete failing
extraction `items[9].id`. -/
theorem c7_extract_by_path_witness :
    ∃ tok, "Index out of range at [9]" = "Key not found: " ++ tok ∨
           "Index out of range at [9]" = "Index out of range at " ++ tok :=
  c7_extract_by_path.2.2 exItems "items[9].id" "Index out of range at [9]" rfl

/-- C8: `search({"a":{"b":"foo"}}, "foo")` returns `["a.b"]`,
`search([{"x":1},{"x":2}], "2")` returns `["[1].x"]`, and every search
result is de-duplicated (first occurrence preserved, no repeats). -/
theorem c8_search_json :
    search_json exSearchA "foo" = ["a.b"] ∧
    search_json exSearchB "2" = ["[1].x"] ∧
    (∀ (node : Json) (query path : String), (search_json node query path).Nodup) := by
  refine ⟨rfl, rfl, ?_⟩
  intro node query path
  unfold search_json
  exact (uniq_preserve_order_spec _ _).1

/-- C3 counterexample: on whitespace-only input nothing parses
(`looks_like_json` is false and the whole-input parse fails), `entries`
ends empty and `primary` is absent — yet `errors` is empty too, because the
sole segment strips to the empty string and is skipped by the loop.  The
claim requires a non-empty `errors` list here. -/
theorem c3_counterexample_blank_input :
    looks_like_json " " = false ∧
    (try_json_loads_once " ").1 = none ∧
    normalize_input_to_json " " = .ok ⟨none, [], []⟩ := by
  exact ⟨rfl, rfl, rfl⟩

/-- C3 amended: whenever `normalize` returns (that is, does not raise),
more than one entry makes `primary` the array of `entries` in order,
exactly one entry makes `primary` that entry, and zero entries with no
successful whole-input parse leave `primary` absent — with `errors`
non-empty provided at least one segment of the input is non-blank. -/
theorem c3_normalization_result_invariant (t : String) (r : NormResult)
    (h : normalize_input_to_json t = .ok r) :
    (1 < r.entries.length → r.primary = some (.arr (JElems.ofList r.entries))) ∧
    (∀ e, r.entries = [e] → r.primary = some e) ∧
    (r.entries = [] →
      ¬(looks_like_json t = true ∧ (try_json_loads_once t).1.isSome = true) →
      r.primary = none ∧
      ((explode_lines t).any (fun s => pyStrip s ≠ "") = true → r.errors ≠ [])) := by
  unfold normalize_input_to_json at h
  by_cases hl : looks_like_json t
  · rw [if_pos hl] at h
    split at h
    next obj snd heq =>
      simp only [Except.ok.injEq] at h
      subst h
      refine ⟨by simp, by simp, ?_⟩
      intro _ hno
      exact absurd ⟨hl, by rw [heq] ; rfl⟩ hno
    next perr heq =>
      split at h
      next e heq2 => exact absurd h (by simp)
      next entries errors heq2 =>
        simp only [Except.ok.injEq] at h
        subst h
        refine ⟨?_, ?_, ?_⟩
        · intro hlen
          have hlen2 : 1 < entries.length := hlen
          rcases entries with _ | ⟨a, _ | ⟨b, rest⟩⟩
          · simp at hlen2
          · simp at hlen2
          · rfl
        · intro e he
          have he2 : entries = [e] := he
          subst he2
          rfl
        · intro hnil _
          have hnil2 : entries = [] := hnil
          subst hnil2
          refine ⟨rfl, fun _ => ?_⟩
          have hc := process_segments_count _ _ _ _ _ heq2
          simp only [List.length_nil, List.length_cons] at hc
          intro heqe
          have heqe2 : errors = [] := heqe
          rw [heqe2] at hc
          simp only [List.length_nil] at hc
          omega
  · rw [if_neg hl] at h
    split at h
    next e heq2 => exact absurd h (by simp)
    next entries errors heq2 =>
      simp only [Except.ok.injEq] at h
      subst h
      refine ⟨?_, ?_, ?_⟩
      · intro hlen
        have hlen2 : 1 < entries.length := hlen
        rcases entries with _ | ⟨a, _ | ⟨b, rest⟩⟩
        · simp at hlen2
        · simp at hlen2
        · rfl
      · intro e he
        have he2 : entries = [e] := he
        subst he2
        rfl
      · intro hnil _
        have hnil2 : entries = [] := hnil
        subst hnil2
        refine ⟨rfl, fun hany => ?_⟩
        have hc := process_segments_count _ _ _ _ _ heq2
        simp only [List.length_nil] at hc
        rcases List.any_eq_true.mp hany with ⟨x, hx, hxs⟩
        have hmem : x ∈ (explode_lines t).filter (fun s => decide (pyStrip s ≠ "")) :=
          List.mem_filter.mpr ⟨hx, hxs⟩
        have hpos : 0 < ((explode_lines t).filter (fun s => decide (pyStrip s ≠ ""))).length :=
          List.length_pos.mpr (fun hemp => by rw [hemp] at hmem; cases hmem)
        intro heqe
        have heqe2 : errors = [] := heqe
        rw [heqe2] at hc
        simp only [List.length_nil] at hc
        omega

/-- C3 witness: the amended invariant at the concrete input `abc` — a
single non-blank segment that fails every decoder pass, leaving zero
entries, an absent primary and one diagnostic. -/
theorem c3_normalization_result_invariant_witness :
    (none : Option Json) = none ∧
    (["Segment failed: Failed to decode escaped JSON. Attempts: Expecting value | Expecting value | Expecting value\nSegment: abc"] :
      List String) ≠ [] := by
  have h := (c3_normalization_result_invariant "abc"
      ⟨none, [],
       ["Segment failed: Failed to decode escaped JSON. Attempts: Expecting value | Expecting value | Expecting value\nSegment: abc"]⟩
      rfl).2.2 rfl
    (fun hcon => by
      have hb : looks_like_json "abc" = false := rfl
      rw [hb] at hcon
      exact absurd hcon.1 (by simp))
  exact ⟨h.1, h.2 rfl⟩

/-- Python `s.startswith(pre)`. -/
def pyStartsWith (pre s : String) : Bool :=
  pre.data.isPrefixOf s.data

/-- Python `s.endswith(suf)`. -/
def pyEndsWith (suf s : String) : Bool :=
  suf.data.reverse.isPrefixOf s.data.reverse

/-- Appending a closing brace makes `endswith("}")` true. -/
theorem pyEndsWith_append_rbrace (s : String) : pyEndsWith "\x7d" (s ++ "\x7d") = true := by
  simp [pyEndsWith, String.data_append, List.isPrefixOf]

/-- Prepending an opening brace makes `startswith("{")` true. -/
theorem pyStartsWith_prepend_lbrace (s : String) : pyStartsWith "\x7b" ("\x7b" ++ s) = true := by
  simp [pyStartsWith, String.data_append, List.isPrefixOf]

/-- C5 counterexample: on `xyz},{"b":2},{"c"` the boundary split yields
three pieces, but the reconstruction only appends `}` to the first piece
and only prepends `{` to the later ones — the first piece `xyz}` does not
start with `{` and the middle piece `{"b":2` does not end with `}`. -/
theorem c5_counterexample_unbalanced_pieces :
    reSplitBoundary "xyz\x7d,\x7b\"b\":2\x7d,\x7b\"c\"" =
      ["xyz", "\"b\":2", "\"c\""] ∧
    explode_lines "xyz\x7d,\x7b\"b\":2\x7d,\x7b\"c\"" =
      ["xyz\x7d", "\x7b\"b\":2", "\x7b\"c\""] ∧
    pyStartsWith "\x7b" "xyz\x7d" = false ∧
    pyEndsWith "\x7d" "\x7b\"b\":2" = false := by
  exact ⟨rfl, rfl, rfl, rfl⟩

/-- C5 amended: when the whole (trimmed) input does not parse, at most one
non-blank line exists, and the boundary split yields more than one part,
`explode_lines` returns the first part with `}` appended (so it ends with
`}`) followed by the later parts with `{` prepended (so they start with
`{`); and the two-object input `{"a":1},{"b":2}` splits into two segments
that parse independently, yielding `entries` `[{"a":1},{"b":2}]`. -/
theorem c5_boundary_split_reconstruction :
    (∀ (t p0 : String) (ps : List String),
      (try_json_loads_once (pyStrip t)).1 = none →
      ((pySplitlines (pyStrip t)).filter (fun ln => pyStrip ln ≠ "")).length ≤ 1 →
      reSplitBoundary (pyStrip t) = p0 :: ps →
      ps ≠ [] →
      explode_lines t = (p0 ++ "\x7d") :: ps.map (fun p => "\x7b" ++ p) ∧
      pyEndsWith "\x7d" (p0 ++ "\x7d") = true ∧
      (∀ p ∈ ps.map (fun p => "\x7b" ++ p), pyStartsWith "\x7b" p = true)) ∧
    normalize_input_to_json "\x7b\"a\":1\x7d,\x7b\"b\":2\x7d" =
      .ok ⟨some (.arr (.cons objA1 (.cons objB2 .nil))), [objA1, objB2],
           ["Parse error: Extra data"]⟩ := by
  refine ⟨?_, rfl⟩
  intro t p0 ps h1 h2 h3 h4
  rcases ps with _ | ⟨q, qs⟩
  · exact absurd rfl h4
  refine ⟨?_, pyEndsWith_append_rbrace p0, ?_⟩
  · simp only [explode_lines, h1, h3]
    rw [if_neg (by omega), if_pos (by simp)]
  · intro p hp
    rcases List.mem_map.mp hp with ⟨q0, _, rfl⟩
    exact pyStartsWith_prepend_lbrace q0

/-- C5 witness: the amended statement at the concrete two-object input
`{"a":1},{"b":2}`. -/
theorem c5_boundary_split_reconstruction_witness :
    explode_lines "\x7b\"a\":1\x7d,\x7b\"b\":2\x7d" =
      ("\x7b\"a\":1" ++ "\x7d") :: (["\"b\":2\x7d"].map (fun p => "\x7b" ++ p)) ∧
    pyEndsWith "\x7d" ("\x7b\"a\":1" ++ "\x7d") = true ∧
    (∀ p ∈ ["\"b\":2\x7d"].map (fun p => "\x7b" ++ p), pyStartsWith "\x7b" p = true) :=
  c5_boundary_split_reconstruction.1 "\x7b\"a\":1\x7d,\x7b\"b\":2\x7d"
    "\x7b\"a\":1" ["\"b\":2\x7d"] rfl (by decide) rfl (by simp)
